import Mathlib

/-!
# go-wrk loader: a shallow embedding of `loader/loader.go`

The development models the Go package `loader` of `wordgod123/go-wrk`:

* `escapeUrlStr`, together with the pieces of the Go standard library it calls
  (`strings.Index`, `strings.Split`, `url.QueryEscape`);
* `DoRequest`, whose network exchange is supplied by the environment;
* the two worker loops `RunSingleLoadSession` (fixed request) and
  `RunSingleLoadSessionBy` (request pipeline with templates), run against an
  explicit `World` that answers every clock reading, every load of the
  cancellation flag and every HTTP exchange;
* `Stop`.

Conventions.

* A Go `string` (and a `[]byte`) is a finite sequence of bytes: `GoString`.  A nil
  slice and an empty one are both `[]`; the code only ever converts the body with
  `string(body)`, which cannot tell them apart.
* `time.Duration` is a count of nanoseconds, an `Int`.
* Go `int` is taken to be 64 bits wide (amd64 / arm64).  The response size is computed
  from values the peer controls (`Content-Length`), so that sum is wrapped to 64 bits
  (`wrapInt64`).  The request and error counters grow by one per HTTP round trip and the
  duration totals by measured elapsed time; they cannot reach `2^63` and are kept in `Int`.
-/

namespace Loader

/-! ## Go strings -/

/-- A Go `string`: an immutable sequence of bytes. -/
abbrev GoString := List UInt8

/-- The bytes (UTF-8) of a string literal of the Go source. -/
def str (s : String) : GoString := s.toList.flatMap String.utf8EncodeChar

/-- Go `strings.HasPrefix s p`, with the arguments in Go order. -/
def startsWith : GoString → GoString → Bool
  | _, [] => true
  | [], _ :: _ => false
  | c :: cs, p :: ps => c == p && startsWith cs ps

/-- Scan for `strings.Index`: `i` is the offset of the suffix being looked at. -/
def indexFrom (sub : GoString) : GoString → Nat → Int
  | [], i => if sub.isEmpty then (i : Int) else -1
  | c :: cs, i => if startsWith (c :: cs) sub then (i : Int) else indexFrom sub cs (i + 1)

/-- Go `strings.Index s sub`: the offset of the first occurrence of `sub` in `s`,
or `-1` when there is none. -/
def Index (s sub : GoString) : Int := indexFrom sub s 0

/-- Scan for `strings.Split` with a non-empty separator.  `skip` counts the bytes of a
separator just recognised that are still to be stepped over; `acc` is the current piece,
reversed. -/
def splitFrom (sep : GoString) : GoString → Nat → GoString → List GoString
  | [], _, acc => [acc.reverse]
  | _ :: cs, skip + 1, acc => splitFrom sep cs skip acc
  | c :: cs, 0, acc =>
    if startsWith (c :: cs) sep then acc.reverse :: splitFrom sep cs (sep.length - 1) []
    else splitFrom sep cs 0 (c :: acc)

/-- Go `strings.Split s sep` for a non-empty `sep` (the loader only splits on `"&"` and
`"="`): the pieces of `s` between the non-overlapping occurrences of `sep`, found left to
right; one piece more than there are occurrences. -/
def Split (s sep : GoString) : List GoString := splitFrom sep s 0 []

/-- Scan for `strings.Replace … -1` with a non-empty `old`; `skip` as in `splitFrom`. -/
def replaceFrom (old new : GoString) : GoString → Nat → GoString
  | [], _ => []
  | _ :: cs, skip + 1 => replaceFrom old new cs skip
  | c :: cs, 0 =>
    if startsWith (c :: cs) old then new ++ replaceFrom old new cs (old.length - 1)
    else c :: replaceFrom old new cs 0

/-- Go `strings.Replace s old new (-1)` for a non-empty `old`: every non-overlapping
occurrence of `old`, found left to right, is replaced by `new`.  The loader calls it with
`old` a placeholder text, which starts with two opening braces and is never empty; for an
empty `old` (not reached) the string is returned as it is. -/
def Replace (s old new : GoString) : GoString :=
  if old.isEmpty then s else replaceFrom old new s 0

/-- Go `strings.Join elems sep`: the elements with `sep` between them. -/
def Join : List GoString → GoString → GoString
  | [], _ => []
  | [t], _ => t
  | t :: t' :: ts, sep => t ++ sep ++ Join (t' :: ts) sep

/-! ## `net/url`: `QueryEscape` -/

/-- The digits `url.QueryEscape` writes after a percent sign (`upperhex` in `net/url`). -/
def upperhex : GoString := str "0123456789ABCDEF"

/-- Go `net/url`, `shouldEscape c encodeQueryComponent`: letters, digits and the four
marks `-`, `_`, `.`, `~` are kept; every other byte is escaped (the reserved characters
too, in this mode). -/
def shouldEscape (c : UInt8) : Bool :=
  if (97 ≤ c && c ≤ 122) || (65 ≤ c && c ≤ 90) || (48 ≤ c && c ≤ 57) then false
  else if c == 45 || c == 95 || c == 46 || c == 126 then false
  else true

/-- Go `url.QueryEscape` (`escape s encodeQueryComponent`), byte by byte: a space becomes
`+`; any other byte that `shouldEscape` becomes `%` and its two upper-case hex digits;
the rest is copied. -/
def QueryEscape (s : GoString) : GoString :=
  s.flatMap fun c =>
    if c == 32 then [43]
    else if shouldEscape c then
      [37, upperhex.getD (c >>> 4).toNat 0, upperhex.getD (c &&& 15).toNat 0]
    else [c]

/-! ## `escapeUrlStr` (loader.go, lines 90-117) -/

/-- Lines 99-104: the text a query token `q` is replaced by. -/
def qEscaped (q : GoString) : GoString :=
  let qSplit := Split q (str "=")
  if qSplit.length == 2 then qSplit.getD 0 [] ++ str "=" ++ QueryEscape (qSplit.getD 1 [])
  else qSplit.getD 0 []

/-- One turn of the loop over the query tokens (lines 98-112).  The state is
`(query, first)`. -/
def escapeToken (st : GoString × Bool) (q : GoString) : GoString × Bool :=
  let query := if st.2 then st.1 else st.1 ++ str "&"
  (query ++ qEscaped q, false)

/-- Go `escapeUrlStr`. -/
def escapeUrlStr (inp : GoString) : GoString :=
  let qm := Index inp (str "?")
  if qm != -1 then
    let qry := inp.drop (qm.toNat + 1)
    let qrys := Split qry (str "&")
    let query := (qrys.foldl escapeToken ([], true)).1
    inp.take qm.toNat ++ str "?" ++ query
  else inp

/-! ## Time, sizes, statistics -/

/-- Go `time.Duration`: a number of nanoseconds. -/
abbrev Duration := Int

/-- Go `time.Minute`. -/
def Minute : Duration := 60 * 1000000000

/-- The value a 64-bit two's-complement register holds for the integer `x`
(Go `int`, `int64`). -/
def wrapInt64 (x : Int) : Int := (x + 2 ^ 63) % 2 ^ 64 - 2 ^ 63

/-- Modelled from the spec: `util.MaxDuration` of package `util`, whose file is not among
the sources; the larger of two durations. -/
def MaxDuration (d1 d2 : Duration) : Duration := max d1 d2

/-- Modelled from the spec: `util.MinDuration` of package `util`, whose file is not among
the sources; the smaller of two durations. -/
def MinDuration (d1 d2 : Duration) : Duration := min d1 d2

/-- Go `RequesterStats` (lines 55-66). -/
structure RequesterStats where
  TotRespSize : Int
  TotDuration : Duration
  MinRequestTime : Duration
  MaxRequestTime : Duration
  NumRequests : Int
  NumErrs : Int
  ResponseNotMatch : Int
  TemplateRenderTime : Duration
  MaxTempRenderTime : Duration
  MinTempRenderTime : Duration
deriving DecidableEq

/-- Go `&RequesterStats{MinRequestTime: time.Minute}` (lines 188 and 216): every other
field has its zero value. -/
def newStats : RequesterStats :=
  { TotRespSize := 0, TotDuration := 0, MinRequestTime := Minute, MaxRequestTime := 0,
    NumRequests := 0, NumErrs := 0, ResponseNotMatch := 0, TemplateRenderTime := 0,
    MaxTempRenderTime := 0, MinTempRenderTime := 0 }

/-! ## One HTTP exchange, as the environment answers it -/

/-- Go `http.Header`: field names with their values. -/
abbrev Header := List (GoString × List GoString)

/-- The part of an `*http.Response` that `DoRequest` reads. -/
structure Response where
  StatusCode : Int
  /-- Go `resp.ContentLength`, an `int64`; `-1` when the length is unknown. -/
  ContentLength : Int
  Header : Header
  /-- The bytes `ioutil.ReadAll(resp.Body)` returns (what was read, also when the read
  reports an error, which line 169 only logs). -/
  Body : GoString
deriving DecidableEq

/-- The dynamic type of a non-nil error returned by `httpClient.Do` (line 152). -/
inductive DoErr where
  | urlError
  | other
deriving DecidableEq

/-- The request as `DoRequest` builds it (lines 125-145). -/
structure HttpRequest where
  method : GoString
  url : GoString
  /-- The request body: absent when `reqBody` is empty (lines 127-130). -/
  body : Option GoString
  header : List (GoString × GoString)
  /-- Go `req.Host`; empty when no override was given. -/
  host : GoString
deriving DecidableEq

/-- What happens to one request: the results of `http.NewRequest`, of `httpClient.Do`,
and the reading of `time.Since(start)` taken when the status is classified. -/
structure Exchange where
  newRequestErr : Bool
  doErr : Option DoErr
  resp : Option Response
  elapsed : Duration
deriving DecidableEq

/-- The three results of `DoRequest`. -/
structure Reply where
  respSize : Int
  duration : Duration
  body : GoString
deriving DecidableEq

/-- Go `USER_AGENT`. -/
def USER_AGENT : GoString := str "go-wrk"

/-- Lines 125-145 of `DoRequest`: the request that is handed to the client. -/
def buildRequest (header : List (GoString × GoString))
    (method host loadUrl reqBody : GoString) : HttpRequest :=
  let loadUrl := escapeUrlStr loadUrl
  let buf := if reqBody.length > 0 then some reqBody else none
  { method := method, url := loadUrl, body := buf,
    header := header ++ [(str "User-Agent", USER_AGENT)], host := host }

/-- Go `DoRequest` (lines 121-183).  `est` stands for `util.EstimateHttpHeadersSize`
(package `util` is not among the sources) and `net` for the network. -/
def DoRequest (est : Header → Int) (net : HttpRequest → Exchange)
    (header : List (GoString × GoString)) (method host loadUrl reqBody : GoString) : Reply :=
  let ex := net (buildRequest header method host loadUrl reqBody)
  if ex.newRequestErr then { respSize := -1, duration := -1, body := [] }
  else if ex.doErr == some DoErr.other then { respSize := -1, duration := -1, body := [] }
  else
    match ex.resp with
    | none => { respSize := -1, duration := -1, body := [] }
    | some resp =>
      let body := resp.Body
      if resp.StatusCode == 200 || resp.StatusCode == 201 then
        { respSize := wrapInt64 ((body.length : Int) + est resp.Header),
          duration := ex.elapsed, body := body }
      else if resp.StatusCode == 301 || resp.StatusCode == 307 then
        { respSize := wrapInt64 (resp.ContentLength + est resp.Header),
          duration := ex.elapsed, body := body }
      else { respSize := -1, duration := -1, body := body }

/-! ## Configuration and cancellation -/

/-- Go `LoadCfg` (lines 33-52) without its channel: what a worker sends on
`statsAggregator` is part of the run's `Outcome`. -/
structure LoadCfg where
  duration : Int
  goroutines : Int
  testUrl : GoString
  reqBody : GoString
  method : GoString
  host : GoString
  header : List (GoString × GoString)
  timeoutms : Int
  allowRedirects : Bool
  disableCompression : Bool
  disableKeepAlive : Bool
  interrupted : Int
  clientCert : GoString
  clientKey : GoString
  caCert : GoString
  http2 : Bool
  requestfile : GoString

/-- Go `NewLoadCfg` (lines 68-88), without the channel argument: the fields as given and
the flag at `0`. -/
def NewLoadCfg (duration goroutines : Int) (testUrl reqBody method host : GoString)
    (header : List (GoString × GoString)) (timeoutms : Int)
    (allowRedirects disableCompression disableKeepAlive : Bool)
    (clientCert clientKey caCert : GoString) (http2 : Bool) (requestfile : GoString) :
    LoadCfg :=
  { duration := duration, goroutines := goroutines, testUrl := testUrl, reqBody := reqBody,
    method := method, host := host, header := header, timeoutms := timeoutms,
    allowRedirects := allowRedirects, disableCompression := disableCompression,
    disableKeepAlive := disableKeepAlive, interrupted := 0, clientCert := clientCert,
    clientKey := clientKey, caCert := caCert, http2 := http2, requestfile := requestfile }

/-- Go `(*LoadCfg).Stop` (lines 316-318): `atomic.StoreInt32(&cfg.interrupted, 1)`. -/
def Stop (cfg : LoadCfg) : LoadCfg := { cfg with interrupted := 1 }

/-- Go `PipelineRequest` (lines 26-31). -/
structure PipelineRequest where
  Url : GoString
  Parameters : GoString
  Method : GoString
  Response : GoString
deriving DecidableEq

/-- Everything outside the worker that a run reads.

* `clientErr`: whether `client(…)` returned an error (lines 191 and 219);
* `withinDuration k`: the value of `time.Since(start).Seconds() <= float64(cfg.duration)`
  the `k`-th time the loop condition is evaluated (a floating-point comparison of a clock
  reading, taken as given);
* `stopCalled k`: whether some goroutine has called `Stop` after the worker started and
  before the `k`-th load of the flag;
* `net k`: the network's answer to the `k`-th call of `DoRequest`;
* `requestParams`: the steps `yaml.Unmarshal` produced from the request file (line 230);
* `renderTime k`: the reading `time.Since(now)` of line 279 in the step that makes the
  `k`-th call of `DoRequest`. -/
structure World where
  clientErr : Bool
  withinDuration : Nat → Bool
  stopCalled : Nat → Bool
  net : Nat → HttpRequest → Exchange
  requestParams : List PipelineRequest
  renderTime : Nat → Duration

/-- Go `atomic.LoadInt32(&cfg.interrupted)` at the `k`-th evaluation of the loop
condition: `Stop` is the only writer and it writes `1`. -/
def loadInterrupted (w : World) (cfg : LoadCfg) (k : Nat) : Int :=
  if w.stopCalled k then 1 else cfg.interrupted

/-- The loop condition of lines 196 and 246. -/
def keepGoing (w : World) (cfg : LoadCfg) (k : Nat) : Bool :=
  w.withinDuration k && loadInterrupted w cfg k == 0

/-- One call of `DoRequest` as the run made it: the arguments and the results. -/
structure Call where
  method : GoString
  host : GoString
  loadUrl : GoString
  reqBody : GoString
  reply : Reply
deriving DecidableEq

/-- Lines 199-207 and 286-291: how one reply is folded into the request statistics. -/
def recordReply (stats : RequesterStats) (r : Reply) : RequesterStats :=
  if r.respSize > 0 then
    { stats with
      TotRespSize := wrapInt64 (stats.TotRespSize + r.respSize)
      TotDuration := stats.TotDuration + r.duration
      MaxRequestTime := MaxDuration r.duration stats.MaxRequestTime
      MinRequestTime := MinDuration r.duration stats.MinRequestTime
      NumRequests := stats.NumRequests + 1 }
  else { stats with NumErrs := stats.NumErrs + 1 }

/-- The durations of the calls that the run loop counts as successes (positive size), in
the order of the calls. -/
def successDurations (calls : List Call) : List Duration :=
  (calls.filter fun c => decide (0 < c.reply.respSize)).map fun c => c.reply.duration

/-- What a finished worker leaves behind. -/
structure Outcome where
  /-- Whether `log.Fatal` was reached (the process exits, nothing is sent). -/
  fatal : Bool
  /-- The records this worker sent on `cfg.statsAggregator`, in order. -/
  statsAggregator : List RequesterStats
  /-- The calls of `DoRequest` it made, in order. -/
  calls : List Call
  /-- The response history at the end (pipeline mode; empty in fixed mode). -/
  Responses : List GoString

/-! ## `RunSingleLoadSession` (lines 187-210) -/

/-- The worker's variables in fixed-request mode, with the calls made so far. -/
structure Session where
  stats : RequesterStats
  calls : List Call

/-- The loop body, lines 197-207. -/
def requestOnce (est : Header → Int) (w : World) (cfg : LoadCfg) (s : Session) : Session :=
  let r := DoRequest est (w.net s.calls.length) cfg.header cfg.method cfg.host
    cfg.testUrl cfg.reqBody
  { stats := recordReply s.stats r
    calls := s.calls ++
      [{ method := cfg.method, host := cfg.host, loadUrl := cfg.testUrl,
         reqBody := cfg.reqBody, reply := r }] }

/-- The loop of lines 196-208, from its `k`-th evaluation of the condition on; `none`
when the condition still holds after `fuel` evaluations. -/
def loopSingle (est : Header → Int) (w : World) (cfg : LoadCfg) :
    Nat → Nat → Session → Option Session
  | 0, _, _ => none
  | fuel + 1, k, s =>
    if keepGoing w cfg k then loopSingle est w cfg fuel (k + 1) (requestOnce est w cfg s)
    else some s

/-- Go `(*LoadCfg).RunSingleLoadSession`. -/
def RunSingleLoadSession (est : Header → Int) (w : World) (cfg : LoadCfg) (fuel : Nat) :
    Option Outcome :=
  if w.clientErr then
    some { fatal := true, statsAggregator := [], calls := [], Responses := [] }
  else
    (loopSingle est w cfg fuel 0 { stats := newStats, calls := [] }).map fun s =>
      { fatal := false, statsAggregator := [s.stats], calls := s.calls, Responses := [] }

/-! ## Templates (lines 240 and 256-277) -/

/-- The byte `{`. -/
def lbrace : UInt8 := 123

/-- The byte `}`. -/
def rbrace : UInt8 := 125

/-- The class `[^{}]` of the template pattern. -/
def notBrace (c : UInt8) : Bool := !(c == lbrace || c == rbrace)

/-- A match of the pattern `{{([^{}]+)}}` that starts at the first byte of `s`: the text
of its group.  After the two opening braces the group takes the longest run of bytes that
are not braces (a shorter one would be followed by a byte of the run, not by a closing
brace); the run must not be empty and two closing braces must follow. -/
def matchAt (s : GoString) : Option GoString :=
  if startsWith s [lbrace, lbrace] then
    let rest := s.drop 2
    let g := rest.takeWhile notBrace
    if g.isEmpty then none
    else if startsWith (rest.dropWhile notBrace) [rbrace, rbrace] then some g
    else none
  else none

/-- The parameter string `paras` contains a placeholder, in the words of the
specification: two opening braces, a non-empty text without braces, two closing braces. -/
def HasPlaceholder (paras : GoString) : Prop :=
  ∃ pre g post : GoString, g ≠ [] ∧ (∀ c ∈ g, c ≠ lbrace ∧ c ≠ rbrace) ∧
    paras = pre ++ [lbrace, lbrace] ++ g ++ [rbrace, rbrace] ++ post

/-- Scan for `FindAllStringSubmatch`; `skip` counts the bytes of the match just found that
are still to be stepped over. -/
def findFrom : GoString → Nat → List (List GoString)
  | [], _ => []
  | _ :: cs, skip + 1 => findFrom cs skip
  | c :: cs, 0 =>
    match matchAt (c :: cs) with
    | some g => [[lbrace, lbrace] ++ g ++ [rbrace, rbrace], g] :: findFrom cs (g.length + 3)
    | none => findFrom cs 0

/-- Go `templateCompiler.FindAllStringSubmatch(paras, -1)` for the pattern of line 240:
the successive non-overlapping matches, leftmost first, each as the whole match followed
by its one group. -/
def FindAllStringSubmatch (paras : GoString) : List (List GoString) := findFrom paras 0

/-- The `otto` interpreter, as far as the loader uses it, over a state `σ` of its own:
`Set` is `vm.Set("item1", Responses)`, `Run` is `vm.Run(script)` (its result and error are
dropped by line 263), and `GetV` is `vm.Get("v")` followed by `ToString()`. -/
structure Otto (σ : Type) where
  Set : σ → List GoString → σ
  Run : σ → GoString → σ
  GetV : σ → GoString

/-- The script of line 263 for the expression `e` of a placeholder. -/
def script (e : GoString) : GoString :=
  str "item=[];for(i in item1)\x7bif(item1[i] != '')\x7bitem[i] = JSON.parse(item1[i]);\x7d \x7d; v = " ++ e

/-- One turn of the loop over the matches, lines 261-276.  The state is `(vm, paras)`. -/
def renderOne {σ : Type} (otto : Otto σ) (st : σ × GoString) (iTemplate : List GoString) :
    σ × GoString :=
  if iTemplate.length == 2 then
    let vm := otto.Run st.1 (script (iTemplate.getD 1 []))
    let itemResult := otto.GetV vm
    let oldtemplate := [lbrace, lbrace] ++ iTemplate.getD 1 [] ++ [rbrace, rbrace]
    (vm, Replace st.2 oldtemplate itemResult)
  else st

/-- Lines 256-277: the interpreter is given the history, and the parameter string is
rewritten when it contains two opening braces. -/
def render {σ : Type} (otto : Otto σ) (vm : σ) (Responses : List GoString)
    (paras : GoString) : σ × GoString :=
  let vm := otto.Set vm Responses
  if Index paras [lbrace, lbrace] ≥ 0 then
    (FindAllStringSubmatch paras).foldl (renderOne otto) (vm, paras)
  else (vm, paras)

/-! ## `RunSingleLoadSessionBy` (lines 215-314) -/

/-- The worker's variables in pipeline mode, with the calls made so far. -/
structure SessionBy (σ : Type) where
  stats : RequesterStats
  Responses : List GoString
  vm : σ
  calls : List Call

/-- The reply `DoRequest` gives in the step that runs `request` from state `s`
(line 284). -/
def replyBy {σ : Type} (est : Header → Int) (otto : Otto σ) (w : World) (cfg : LoadCfg)
    (s : SessionBy σ) (request : PipelineRequest) : Reply :=
  DoRequest est (w.net s.calls.length) cfg.header request.Method (str "") request.Url
    (render otto s.vm s.Responses request.Parameters).2

/-- Lines 286-309: how the reply of a step is folded into the statistics. -/
def recordStep (stats : RequesterStats) (templateRenderTime : Duration)
    (response : GoString) (r : Reply) : RequesterStats :=
  if r.respSize > 0 then
    { stats with
      TotRespSize := wrapInt64 (stats.TotRespSize + r.respSize)
      TotDuration := stats.TotDuration + r.duration
      MaxRequestTime := MaxDuration r.duration stats.MaxRequestTime
      MinRequestTime := MinDuration r.duration stats.MinRequestTime
      NumRequests := stats.NumRequests + 1
      TemplateRenderTime := stats.TemplateRenderTime + templateRenderTime
      ResponseNotMatch :=
        if response != r.body then stats.ResponseNotMatch + 1 else stats.ResponseNotMatch }
  else { stats with NumErrs := stats.NumErrs + 1 }

/-- The body of the loop over the steps, lines 248-309, for the step at `index`. -/
def stepBy {σ : Type} (est : Header → Int) (otto : Otto σ) (w : World) (cfg : LoadCfg)
    (s : SessionBy σ) (index : Nat) (request : PipelineRequest) : SessionBy σ :=
  let templateRenderTime := w.renderTime s.calls.length
  let rendered := render otto s.vm s.Responses request.Parameters
  let r := replyBy est otto w cfg s request
  { stats := recordStep s.stats templateRenderTime request.Response r
    Responses := if r.respSize > 0 then s.Responses.set index r.body else s.Responses
    vm := rendered.1
    calls := s.calls ++
      [{ method := request.Method, host := str "", loadUrl := request.Url,
         reqBody := rendered.2, reply := r }] }

/-- The loop of line 247 over the steps that remain, the first of them at `index`. -/
def passFrom {σ : Type} (est : Header → Int) (otto : Otto σ) (w : World) (cfg : LoadCfg) :
    List PipelineRequest → Nat → SessionBy σ → SessionBy σ
  | [], _, s => s
  | request :: rest, index, s =>
    passFrom est otto w cfg rest (index + 1) (stepBy est otto w cfg s index request)

/-- The loop of lines 246-312, from its `k`-th evaluation of the condition on; `none`
when the condition still holds after `fuel` evaluations. -/
def loopBy {σ : Type} (est : Header → Int) (otto : Otto σ) (w : World) (cfg : LoadCfg) :
    Nat → Nat → SessionBy σ → Option (SessionBy σ)
  | 0, _, _ => none
  | fuel + 1, k, s =>
    if keepGoing w cfg k then
      loopBy est otto w cfg fuel (k + 1) (passFrom est otto w cfg w.requestParams 0 s)
    else some s

/-- Go `(*LoadCfg).RunSingleLoadSessionBy`; `vm` is the fresh interpreter of
`otto.New()`. -/
def RunSingleLoadSessionBy {σ : Type} (est : Header → Int) (otto : Otto σ) (vm : σ)
    (w : World) (cfg : LoadCfg) (fuel : Nat) : Option Outcome :=
  if w.clientErr then
    some { fatal := true, statsAggregator := [], calls := [], Responses := [] }
  else
    (loopBy est otto w cfg fuel 0
      { stats := newStats, Responses := List.replicate w.requestParams.length [],
        vm := vm, calls := [] }).map fun s =>
      { fatal := false, statsAggregator := [s.stats], calls := s.calls,
        Responses := s.Responses }

/-! ## Concrete inputs used by the examples below -/

/-- An exchange in which the server answers with the given status line, declared
content length and body, without header fields, after `elapsed` nanoseconds. -/
def answer (status length : Int) (body : GoString) (elapsed : Duration) : Exchange :=
  { newRequestErr := false, doErr := none,
    resp := some { StatusCode := status, ContentLength := length, Header := [], Body := body },
    elapsed := elapsed }

/-- A header-size estimator that gives every header the same size `n`. -/
def estConst (n : Int) : Header → Int := fun _ => n

/-- An interpreter that ignores what it is given; its `v` is always empty. -/
def ottoNone : Otto Unit :=
  { Set := fun _ _ => (), Run := fun _ _ => (), GetV := fun _ => [] }

/-- A configuration: one second, one worker, `GET /a`, a timeout of one second, no
redirects, no client certificate, the steps in `steps.yaml`. -/
def cfg0 : LoadCfg :=
  NewLoadCfg 1 1 (str "/a") [] (str "GET") [] [] 1000 false false false [] [] [] false
    (str "steps.yaml")

/-- A world in which the client is built, nobody calls `Stop`, the clock allows `passes`
turns of the loop, the `k`-th call of `DoRequest` meets the exchange `net k`, and the
step making it took `render k` to render. -/
def worldOf (steps : List PipelineRequest) (passes : Nat) (net : Nat → Exchange)
    (render : Nat → Duration) : World :=
  { clientErr := false, withinDuration := fun k => decide (k < passes),
    stopCalled := fun _ => false, net := fun k _ => net k, requestParams := steps,
    renderTime := render }

/-- A step that posts an empty body to `/s` and expects the body `OK`. -/
def stepOK : PipelineRequest :=
  { Url := str "/s", Parameters := [], Method := str "POST", Response := str "OK" }

/-- The state of a pipeline worker with one step, before its first request. -/
def startOne : SessionBy Unit :=
  { stats := newStats, Responses := [[]], vm := (), calls := [] }

/-- A world for `stepOK` in which every request is answered `status` with body `FAIL`
after 7 ns, and every step took 5 ns to render. -/
def worldFail (status : Int) : World :=
  worldOf [stepOK] 1 (fun _ => answer status 4 (str "FAIL") 7) (fun _ => 5)

/-- A world for the fixed request and for `stepOK`: the clock allows two turns of the
loop; the first request is answered `200` with body `OK` after 9 ns, every later one `500`
with body `FAIL` after 7 ns; every step took 5 ns to render. -/
def worldTwo : World :=
  worldOf [stepOK] 2
    (fun k => if k = 0 then answer 200 2 (str "OK") 9 else answer 500 4 (str "FAIL") 7)
    (fun _ => 5)

/-- A step whose parameter string `a={{}}&b={x}` has braces but no placeholder. -/
def stepBraces : PipelineRequest :=
  { Url := str "/s", Parameters := str "a=\x7b\x7b\x7d\x7d&b=\x7bx\x7d", Method := str "POST",
    Response := str "OK" }

/-! ## `escapeUrlStr` -/

theorem startsWith_byte (c b : UInt8) (cs : GoString) :
    startsWith (c :: cs) [b] = (c == b) := by
  simp [startsWith]

theorem splitFrom_byte_free (b : UInt8) :
    ∀ (t acc rest : GoString), b ∉ t →
      splitFrom [b] (t ++ rest) 0 acc = splitFrom [b] rest 0 (t.reverse ++ acc) := by
  intro t
  induction t with
  | nil => intro acc rest _; rfl
  | cons c t ih =>
    intro acc rest h
    have hc : (c == b) = false := by
      simp only [List.mem_cons, not_or] at h
      simpa using fun hcb => h.1 hcb.symm
    have ht : b ∉ t := fun hb => h (List.mem_cons_of_mem _ hb)
    simp only [List.cons_append, splitFrom, startsWith_byte, hc, Bool.false_eq_true, if_false]
    exact (ih (c :: acc) rest ht).trans (by simp)

theorem splitFrom_Join (b : UInt8) :
    ∀ (ts : List GoString) (t acc : GoString), (∀ x ∈ t :: ts, b ∉ x) →
      splitFrom [b] (Join (t :: ts) [b]) 0 acc = (acc.reverse ++ t) :: ts := by
  intro ts
  induction ts with
  | nil =>
    intro t acc h
    have := splitFrom_byte_free b t acc [] (h t (List.mem_cons_self _ _))
    simp only [List.append_nil] at this
    simp [Join, this, splitFrom]
  | cons t' ts ih =>
    intro t acc h
    have h1 := splitFrom_byte_free b t acc ([b] ++ Join (t' :: ts) [b]) (h t (List.mem_cons_self _ _))
    have h2 := ih t' [] (fun x hx => h x (List.mem_cons_of_mem _ hx))
    simp only [Join, List.append_assoc]
    rw [h1]
    simp only [List.singleton_append, splitFrom, startsWith_byte, beq_self_eq_true, if_true,
      List.length_singleton, Nat.sub_self]
    simpa using h2

theorem Split_Join (b : UInt8) (t : GoString) (ts : List GoString)
    (h : ∀ x ∈ t :: ts, b ∉ x) : Split (Join (t :: ts) [b]) [b] = t :: ts := by
  unfold Split
  rw [splitFrom_Join b ts t [] h]
  rfl

theorem indexFrom_byte (b : UInt8) :
    ∀ (p rest : GoString) (i : Nat), b ∉ p →
      indexFrom [b] (p ++ b :: rest) i = ((i + p.length : Nat) : Int) := by
  intro p
  induction p with
  | nil => intro rest i _; simp [indexFrom, startsWith_byte]
  | cons c p ih =>
    intro rest i h
    have hc : (c == b) = false := by
      simp only [List.mem_cons, not_or] at h
      simpa using fun hcb => h.1 hcb.symm
    have hp : b ∉ p := fun hb => h (List.mem_cons_of_mem _ hb)
    simp only [List.cons_append, indexFrom, startsWith_byte, hc, Bool.false_eq_true, if_false]
    refine (ih rest (i + 1) hp).trans ?_
    simp only [List.length_cons]
    congr 1
    omega

theorem foldl_escapeToken (ts : List GoString) (acc : GoString) :
    ts.foldl escapeToken (acc, false) =
      (acc ++ ts.flatMap (fun q => str "&" ++ qEscaped q), false) := by
  induction ts generalizing acc with
  | nil => simp
  | cons t ts ih =>
    simp only [List.foldl_cons, escapeToken, Bool.false_eq_true, if_false, ih,
      List.flatMap_cons, List.append_assoc]

theorem Join_cons (t : GoString) (ts : List GoString) (sep : GoString) :
    Join (t :: ts) sep = t ++ ts.flatMap (fun q => sep ++ q) := by
  induction ts generalizing t with
  | nil => simp [Join]
  | cons t' ts ih => simp [Join, ih]

theorem escapeUrlStr_query (p t : GoString) (ts : List GoString)
    (hp : (63 : UInt8) ∉ p) (hts : ∀ x ∈ t :: ts, (38 : UInt8) ∉ x) :
    escapeUrlStr (p ++ str "?" ++ Join (t :: ts) (str "&")) =
      p ++ str "?" ++ Join ((t :: ts).map qEscaped) (str "&") := by
  have hq : str "?" = [63] := by decide
  have ha : str "&" = [38] := by decide
  have hidx : Index (p ++ [63] ++ Join (t :: ts) [38]) [63] = (p.length : Int) := by
    unfold Index
    have := indexFrom_byte 63 p (Join (t :: ts) [38]) 0 hp
    simpa using this
  unfold escapeUrlStr
  simp only [hq, ha, hidx]
  have hne : ((p.length : Int) != -1) = true := by
    simp only [bne_iff_ne, ne_eq]
    omega
  simp only [hne, if_true, Int.toNat_ofNat]
  have hdrop : List.drop (p.length + 1) (p ++ [63] ++ Join (t :: ts) [38]) = Join (t :: ts) [38] := by
    rw [List.append_assoc, List.drop_append_eq_append_drop]
    simp
  have htake : List.take p.length (p ++ [63] ++ Join (t :: ts) [38]) = p := by
    rw [List.append_assoc, List.take_append_eq_append_take]
    simp
  rw [hdrop, htake, Split_Join 38 t ts hts]
  simp only [List.foldl_cons, escapeToken, if_true, List.nil_append, foldl_escapeToken,
    List.map_cons, Join_cons, ha, List.flatMap_map]

theorem qEscaped_key_value (k v : GoString) (hk : (61 : UInt8) ∉ k) (hv : (61 : UInt8) ∉ v) :
    qEscaped (k ++ str "=" ++ v) = k ++ str "=" ++ QueryEscape v := by
  have he : str "=" = [61] := by decide
  have := Split_Join 61 k [v] (by
    intro x hx
    simp only [List.mem_cons, List.mem_singleton, List.not_mem_nil, or_false] at hx
    rcases hx with rfl | rfl <;> assumption)
  simp only [Join] at this
  unfold qEscaped
  simp only [he, this]
  simp

theorem qEscaped_no_equals (q : GoString) (hq : (61 : UInt8) ∉ q) : qEscaped q = q := by
  have he : str "=" = [61] := by decide
  have := Split_Join 61 q [] (by
    intro x hx
    simp only [List.mem_singleton] at hx
    subst hx; exact hq)
  simp only [Join] at this
  unfold qEscaped
  simp only [he, this]
  simp

theorem indexFrom_absent (b : UInt8) :
    ∀ (s : GoString) (i : Nat), b ∉ s → indexFrom [b] s i = -1 := by
  intro s
  induction s with
  | nil => intro i _; simp [indexFrom]
  | cons c cs ih =>
    intro i h
    have hc : (c == b) = false := by
      simp only [List.mem_cons, not_or] at h
      simpa using fun hcb => h.1 hcb.symm
    have hcs : b ∉ cs := fun hb => h (List.mem_cons_of_mem _ hb)
    simp only [indexFrom, startsWith_byte, hc, Bool.false_eq_true, if_false]
    exact ih (i + 1) hcs

theorem escapeUrlStr_no_query (inp : GoString) (h : (63 : UInt8) ∉ inp) :
    escapeUrlStr inp = inp := by
  have hq : str "?" = [63] := by decide
  have hidx : Index inp [63] = -1 := indexFrom_absent 63 inp 0 h
  unfold escapeUrlStr
  simp [hq, hidx]

theorem QueryEscape_kept (v : GoString) (h : ∀ c ∈ v, shouldEscape c = false) :
    QueryEscape v = v := by
  induction v with
  | nil => rfl
  | cons c v ih =>
    have hc : shouldEscape c = false := h c (List.mem_cons_self _ _)
    have h32 : (c == 32) = false := by
      cases hb : (c == 32)
      · rfl
      · have : c = 32 := by simpa using hb
        subst this
        exact absurd hc (by decide)
    have hv : QueryEscape v = v := ih (fun x hx => h x (List.mem_cons_of_mem _ hx))
    unfold QueryEscape at hv ⊢
    simp only [List.flatMap_cons, h32, hc, Bool.false_eq_true, if_false, hv,
      List.singleton_append]

/-- C2, as the code has it.  (`63`, `38`, `61` are the bytes `?`, `&`, `=`.)

* `escapeUrlStr "/p?a=1 2&b=x"` is `"/p?a=1+2&b=x"`.
* A URL without `?` is returned as it is.
* For a URL `p?t1&…&tn` (no `?` in `p`, no `&` in the tokens) the output is `p?` followed
  by the tokens, each replaced by `qEscaped`, with `&` between them.
* A token `k=v` with a single `=` becomes `k=` followed by `url.QueryEscape v`.
* A token without `=` is kept as it is.
* `url.QueryEscape` writes a space as `+` (never as `%20`) and keeps a value made of
  letters, digits, `-`, `_`, `.` and `~` as it is. -/
theorem escapeUrlStr_space_is_plus :
    escapeUrlStr (str "/p?a=1 2&b=x") = str "/p?a=1+2&b=x" ∧
    (∀ inp : GoString, (63 : UInt8) ∉ inp → escapeUrlStr inp = inp) ∧
    (∀ (p t : GoString) (ts : List GoString),
      (63 : UInt8) ∉ p → (∀ x ∈ t :: ts, (38 : UInt8) ∉ x) →
      escapeUrlStr (p ++ str "?" ++ Join (t :: ts) (str "&")) =
        p ++ str "?" ++ Join ((t :: ts).map qEscaped) (str "&")) ∧
    (∀ k v : GoString, (61 : UInt8) ∉ k → (61 : UInt8) ∉ v →
      qEscaped (k ++ str "=" ++ v) = k ++ str "=" ++ QueryEscape v) ∧
    (∀ q : GoString, (61 : UInt8) ∉ q → qEscaped q = q) ∧
    (∀ a b : GoString,
      QueryEscape (a ++ str " " ++ b) = QueryEscape a ++ str "+" ++ QueryEscape b) ∧
    (∀ v : GoString, (∀ c ∈ v, shouldEscape c = false) → QueryEscape v = v) := by
  refine ⟨by decide, escapeUrlStr_no_query, escapeUrlStr_query, qEscaped_key_value,
    qEscaped_no_equals, fun a b => ?_, QueryEscape_kept⟩
  have hs : str " " = [32] := by decide
  have hp : str "+" = [43] := by decide
  rw [hs, hp]
  simp [QueryEscape]

/-- C2 at concrete inputs: the general statements applied to the URL `/p` without a
query, to the path `/p` with the tokens `a=1 2` and `b=x`, and to the token `flag`. -/
theorem escapeUrlStr_space_is_plus_example :
    ((63 : UInt8) ∉ str "/p" ∧ escapeUrlStr (str "/p") = str "/p") ∧
    ((63 : UInt8) ∉ str "/p" ∧ (∀ x ∈ [str "a=1 2", str "b=x"], (38 : UInt8) ∉ x) ∧
      escapeUrlStr (str "/p" ++ str "?" ++ Join [str "a=1 2", str "b=x"] (str "&")) =
        str "/p?a=1+2&b=x") ∧
    ((61 : UInt8) ∉ str "flag" ∧ qEscaped (str "flag") = str "flag") :=
  ⟨⟨by decide, escapeUrlStr_space_is_plus.2.1 (str "/p") (by decide)⟩,
    ⟨by decide, by decide,
      (escapeUrlStr_space_is_plus.2.2.1 (str "/p") (str "a=1 2") [str "b=x"] (by decide)
        (by decide)).trans (by decide)⟩,
    ⟨by decide, escapeUrlStr_space_is_plus.2.2.2.2.1 (str "flag") (by decide)⟩⟩

/-- C2 as stated fails: the output for `"/p?a=1 2&b=x"` is not `"/p?a=1%202&b=x"`. -/
theorem escapeUrlStr_space_not_percent20 :
    escapeUrlStr (str "/p?a=1 2&b=x") ≠ str "/p?a=1%202&b=x" := by decide

/-- C3 at the failing input: the token `a=b=c`, which has two `=`, comes out as `a`
(lines 100-104 keep `qSplit[0]` only), while the token `d`, which has none, is kept. -/
theorem escapeUrlStr_truncates_token_with_two_equals :
    escapeUrlStr (str "/p?a=b=c&d") = str "/p?a&d" ∧
    escapeUrlStr (str "/p?a=b=c&d") ≠ str "/p?a=b=c&d" ∧
    qEscaped (str "a=b=c") = str "a" := by decide

/-! ## `DoRequest`: classification of a reply -/

theorem wrapInt64_of_fits (x : Int) (hlo : -(2 ^ 63) ≤ x) (hhi : x < 2 ^ 63) :
    wrapInt64 x = x := by
  unfold wrapInt64
  omega

theorem DoRequest_redirect (est : Header → Int) (net : HttpRequest → Exchange)
    (header : List (GoString × GoString)) (method host loadUrl reqBody : GoString)
    (resp : Response)
    (hnew : (net (buildRequest header method host loadUrl reqBody)).newRequestErr = false)
    (herr : (net (buildRequest header method host loadUrl reqBody)).doErr ≠ some DoErr.other)
    (hresp : (net (buildRequest header method host loadUrl reqBody)).resp = some resp)
    (hstatus : resp.StatusCode = 301 ∨ resp.StatusCode = 307) :
    DoRequest est net header method host loadUrl reqBody =
      { respSize := wrapInt64 (resp.ContentLength + est resp.Header),
        duration := (net (buildRequest header method host loadUrl reqBody)).elapsed,
        body := resp.Body } := by
  unfold DoRequest
  rcases hstatus with h | h <;> simp [hnew, herr, hresp, h]

/-- C6, as the code has it.  For a response with status 301 or 307 `DoRequest` returns
the size `ContentLength + estimated header size` in 64-bit `int` arithmetic (the exact
sum whenever it fits), and the run loop counts the request as a success exactly when
that size is positive: then `NumRequests` grows by one and `NumErrs` stays; otherwise
`NumErrs` grows by one and `NumRequests` stays. -/
theorem redirect_size_and_count (est : Header → Int) (net : HttpRequest → Exchange)
    (header : List (GoString × GoString)) (method host loadUrl reqBody : GoString)
    (resp : Response) (stats : RequesterStats)
    (hnew : (net (buildRequest header method host loadUrl reqBody)).newRequestErr = false)
    (herr : (net (buildRequest header method host loadUrl reqBody)).doErr ≠ some DoErr.other)
    (hresp : (net (buildRequest header method host loadUrl reqBody)).resp = some resp)
    (hstatus : resp.StatusCode = 301 ∨ resp.StatusCode = 307) :
    (DoRequest est net header method host loadUrl reqBody).respSize =
        wrapInt64 (resp.ContentLength + est resp.Header) ∧
    (-(2 ^ 63) ≤ resp.ContentLength + est resp.Header →
      resp.ContentLength + est resp.Header < 2 ^ 63 →
      (DoRequest est net header method host loadUrl reqBody).respSize =
        resp.ContentLength + est resp.Header) ∧
    (0 < (DoRequest est net header method host loadUrl reqBody).respSize →
      (recordReply stats (DoRequest est net header method host loadUrl reqBody)).NumRequests =
          stats.NumRequests + 1 ∧
      (recordReply stats (DoRequest est net header method host loadUrl reqBody)).NumErrs =
          stats.NumErrs) ∧
    ((DoRequest est net header method host loadUrl reqBody).respSize ≤ 0 →
      (recordReply stats (DoRequest est net header method host loadUrl reqBody)).NumRequests =
          stats.NumRequests ∧
      (recordReply stats (DoRequest est net header method host loadUrl reqBody)).NumErrs =
          stats.NumErrs + 1) := by
  rw [DoRequest_redirect est net header method host loadUrl reqBody resp hnew herr hresp hstatus]
  refine ⟨rfl, fun hlo hhi => wrapInt64_of_fits _ hlo hhi, fun hpos => ?_, fun hneg => ?_⟩
  · simp only [recordReply, if_pos hpos, and_self]
  · have : ¬ (0 < wrapInt64 (resp.ContentLength + est resp.Header)) := not_lt.mpr hneg
    simp only [recordReply, gt_iff_lt, if_neg this, and_self]

/-- The example of C6: status 301, content length 100 and a header estimate of 20 give
the size 120, and the request is counted as a success. -/
theorem redirect_size_and_count_example :
    (DoRequest (estConst 20) (fun _ => answer 301 100 [] 7) [] (str "GET") [] (str "/a") []).respSize
        = 120 ∧
    (recordReply newStats
      (DoRequest (estConst 20) (fun _ => answer 301 100 [] 7) [] (str "GET") [] (str "/a") [])).NumRequests
        = 1 ∧
    (recordReply newStats
      (DoRequest (estConst 20) (fun _ => answer 301 100 [] 7) [] (str "GET") [] (str "/a") [])).NumErrs
        = 0 := by
  have h := redirect_size_and_count (estConst 20) (fun _ => answer 301 100 [] 7) []
    (str "GET") [] (str "/a") []
    { StatusCode := 301, ContentLength := 100, Header := [], Body := [] } newStats
    rfl (by decide) rfl (Or.inl rfl)
  have h120 : (DoRequest (estConst 20) (fun _ => answer 301 100 [] 7) [] (str "GET") []
      (str "/a") []).respSize = 120 := by
    rw [h.2.1 (by decide) (by decide)]; rfl
  exact ⟨h120, by rw [(h.2.2.1 (by rw [h120]; decide)).1]; rfl,
    by rw [(h.2.2.1 (by rw [h120]; decide)).2]; rfl⟩

/-- C6 as stated fails.  A 301 response that declares content length 0 with a header
estimate of 0 has size 0 and is counted as an error; and a declared content length of
`2^63 - 1` with a header estimate of 20 overflows `int`: the size is not the sum and the
request is counted as an error. -/
theorem redirect_not_always_success :
    ((DoRequest (estConst 0) (fun _ => answer 301 0 [] 7) [] (str "GET") [] (str "/a") []).respSize
        = 0 ∧
      (recordReply newStats
        (DoRequest (estConst 0) (fun _ => answer 301 0 [] 7) [] (str "GET") [] (str "/a") [])).NumRequests
        = 0 ∧
      (recordReply newStats
        (DoRequest (estConst 0) (fun _ => answer 301 0 [] 7) [] (str "GET") [] (str "/a") [])).NumErrs
        = 1) ∧
    ((DoRequest (estConst 20) (fun _ => answer 301 9223372036854775807 [] 7) [] (str "GET") []
        (str "/a") []).respSize = -9223372036854775789 ∧
      (recordReply newStats
        (DoRequest (estConst 20) (fun _ => answer 301 9223372036854775807 [] 7) [] (str "GET") []
          (str "/a") [])).NumErrs = 1) := by
  decide

/-! ## One step of the pipeline -/

theorem stepBy_stats {σ : Type} (est : Header → Int) (otto : Otto σ) (w : World)
    (cfg : LoadCfg) (s : SessionBy σ) (index : Nat) (request : PipelineRequest) :
    (stepBy est otto w cfg s index request).stats =
      recordStep s.stats (w.renderTime s.calls.length) request.Response
        (replyBy est otto w cfg s request) := rfl

/-- C1, as the code has it.  When the step at `index` is counted as a success
(`DoRequest` returned a positive size), the history slot `Responses[index]` right after the
step holds the body `DoRequest` returned; when it is not, the history is left as it
was.  Either way the history keeps its number of slots (one per step, line 237). -/
theorem history_slot_after_step {σ : Type} (est : Header → Int) (otto : Otto σ) (w : World)
    (cfg : LoadCfg) (s : SessionBy σ) (index : Nat) (request : PipelineRequest)
    (hk : index < s.Responses.length) :
    (0 < (replyBy est otto w cfg s request).respSize →
      (stepBy est otto w cfg s index request).Responses[index]? =
        some (replyBy est otto w cfg s request).body) ∧
    ((replyBy est otto w cfg s request).respSize ≤ 0 →
      (stepBy est otto w cfg s index request).Responses = s.Responses) ∧
    (stepBy est otto w cfg s index request).Responses.length = s.Responses.length := by
  refine ⟨fun hpos => ?_, fun hneg => ?_, ?_⟩
  · simp only [stepBy, gt_iff_lt, if_pos hpos]
    exact List.getElem?_set_self hk
  · have : ¬ (0 < (replyBy est otto w cfg s request).respSize) := not_lt.mpr hneg
    simp only [stepBy, gt_iff_lt, if_neg this]
  · simp only [stepBy]
    split <;> simp

/-- C1 at a concrete input: a step answered `200` with body `FAIL` is a success and its
slot holds `FAIL` afterwards. -/
theorem history_slot_after_step_example :
    0 < startOne.Responses.length ∧
    0 < (replyBy (estConst 20) ottoNone (worldFail 200) cfg0 startOne stepOK).respSize ∧
    (stepBy (estConst 20) ottoNone (worldFail 200) cfg0 startOne 0 stepOK).Responses[0]? =
      some (str "FAIL") :=
  ⟨by decide, by decide,
    ((history_slot_after_step (estConst 20) ottoNone (worldFail 200) cfg0 startOne 0 stepOK
      (by decide)).1 (by decide)).trans (by decide)⟩

/-- C1 as stated fails: a response exists (status 500, body `FAIL`) and `DoRequest`
returns that body, but the slot of the step still holds its initial empty string. -/
theorem history_slot_not_written_on_failure :
    ((worldFail 500).net 0 (buildRequest cfg0.header stepOK.Method [] stepOK.Url [])).resp =
      some { StatusCode := 500, ContentLength := 4, Header := [], Body := str "FAIL" } ∧
    (replyBy (estConst 20) ottoNone (worldFail 500) cfg0 startOne stepOK).body = str "FAIL" ∧
    (stepBy (estConst 20) ottoNone (worldFail 500) cfg0 startOne 0 stepOK).Responses[0]? =
      some [] := by
  decide

/-- C4, as the code has it.  In a step counted as a success (`DoRequest` returned a
positive size) `ResponseNotMatch` grows by exactly one when the body differs from the
expected response and stays when they are equal; in a step counted as an error it stays
whatever the body is. -/
theorem mismatch_counted_on_success {σ : Type} (est : Header → Int) (otto : Otto σ)
    (w : World) (cfg : LoadCfg) (s : SessionBy σ) (index : Nat) (request : PipelineRequest) :
    (0 < (replyBy est otto w cfg s request).respSize →
      request.Response ≠ (replyBy est otto w cfg s request).body →
      (stepBy est otto w cfg s index request).stats.ResponseNotMatch =
        s.stats.ResponseNotMatch + 1) ∧
    (0 < (replyBy est otto w cfg s request).respSize →
      request.Response = (replyBy est otto w cfg s request).body →
      (stepBy est otto w cfg s index request).stats.ResponseNotMatch =
        s.stats.ResponseNotMatch) ∧
    ((replyBy est otto w cfg s request).respSize ≤ 0 →
      (stepBy est otto w cfg s index request).stats.ResponseNotMatch =
        s.stats.ResponseNotMatch) := by
  rw [stepBy_stats]
  refine ⟨fun hpos hne => ?_, fun hpos heq => ?_, fun hneg => ?_⟩
  · simp [recordStep, hpos, hne]
  · simp [recordStep, hpos, heq]
  · have : ¬ (0 < (replyBy est otto w cfg s request).respSize) := not_lt.mpr hneg
    simp [recordStep, this]

/-- The example of C4: expected `OK`, actual `FAIL`, in a step counted as a success: the
counter goes from 0 to 1. -/
theorem mismatch_counted_on_success_example :
    0 < (replyBy (estConst 20) ottoNone (worldFail 200) cfg0 startOne stepOK).respSize ∧
    stepOK.Response ≠ (replyBy (estConst 20) ottoNone (worldFail 200) cfg0 startOne stepOK).body ∧
    (stepBy (estConst 20) ottoNone (worldFail 200) cfg0 startOne 0 stepOK).stats.ResponseNotMatch
      = 1 :=
  ⟨by decide, by decide,
    ((mismatch_counted_on_success (estConst 20) ottoNone (worldFail 200) cfg0 startOne 0
      stepOK).1 (by decide) (by decide)).trans (by decide)⟩

/-- C4 as stated fails: expected `OK`, actual `FAIL` with status 500 (the step is counted
as an error): the body differs from the expected one and `ResponseNotMatch` stays 0. -/
theorem mismatch_not_counted_on_failure :
    stepOK.Response ≠ (replyBy (estConst 20) ottoNone (worldFail 500) cfg0 startOne stepOK).body ∧
    startOne.stats.ResponseNotMatch = 0 ∧
    (stepBy (estConst 20) ottoNone (worldFail 500) cfg0 startOne 0 stepOK).stats.ResponseNotMatch
      = 0 ∧
    (stepBy (estConst 20) ottoNone (worldFail 500) cfg0 startOne 0 stepOK).stats.NumErrs = 1 := by
  decide

/-- C5, as the code has it.  In a step counted as a success (`DoRequest` returned a
positive size) `TemplateRenderTime` grows by the render time of the step; in a step
counted as an error it stays. -/
theorem render_time_totalled_on_success {σ : Type} (est : Header → Int) (otto : Otto σ)
    (w : World) (cfg : LoadCfg) (s : SessionBy σ) (index : Nat) (request : PipelineRequest) :
    (0 < (replyBy est otto w cfg s request).respSize →
      (stepBy est otto w cfg s index request).stats.TemplateRenderTime =
        s.stats.TemplateRenderTime + w.renderTime s.calls.length) ∧
    ((replyBy est otto w cfg s request).respSize ≤ 0 →
      (stepBy est otto w cfg s index request).stats.TemplateRenderTime =
        s.stats.TemplateRenderTime) := by
  rw [stepBy_stats]
  refine ⟨fun hpos => ?_, fun hneg => ?_⟩
  · simp [recordStep, hpos]
  · have : ¬ (0 < (replyBy est otto w cfg s request).respSize) := not_lt.mpr hneg
    simp [recordStep, this]

/-- C5 at a concrete input: a successful step that took 5 ns to render takes the total
from 0 to 5. -/
theorem render_time_totalled_on_success_example :
    0 < (replyBy (estConst 20) ottoNone (worldFail 200) cfg0 startOne stepOK).respSize ∧
    (stepBy (estConst 20) ottoNone (worldFail 200) cfg0 startOne 0 stepOK).stats.TemplateRenderTime
      = 5 :=
  ⟨by decide,
    ((render_time_totalled_on_success (estConst 20) ottoNone (worldFail 200) cfg0 startOne 0
      stepOK).1 (by decide)).trans (by decide)⟩

/-- C5 as stated fails.  A successful step with render time 5 leaves `MaxTempRenderTime`
at 0, below the render time; and a step counted as an error, with render time 5, leaves
`TemplateRenderTime` at 0. -/
theorem render_time_not_folded_everywhere :
    ((worldFail 200).renderTime 0 = 5 ∧
      0 < (replyBy (estConst 20) ottoNone (worldFail 200) cfg0 startOne stepOK).respSize ∧
      (stepBy (estConst 20) ottoNone (worldFail 200) cfg0 startOne 0
        stepOK).stats.MaxTempRenderTime = 0) ∧
    ((worldFail 500).renderTime 0 = 5 ∧
      (stepBy (estConst 20) ottoNone (worldFail 500) cfg0 startOne 0
        stepOK).stats.TemplateRenderTime = 0) := by
  decide

/-! ## The loops -/

theorem loopSingle_inv (est : Header → Int) (w : World) (cfg : LoadCfg) (P : Session → Prop)
    (hstep : ∀ s, P s → P (requestOnce est w cfg s)) :
    ∀ (fuel k : Nat) (s s' : Session), P s → loopSingle est w cfg fuel k s = some s' → P s' := by
  intro fuel
  induction fuel with
  | zero => intro k s s' _ h; simp [loopSingle] at h
  | succ n ih =>
    intro k s s' hP h
    unfold loopSingle at h
    split at h
    · exact ih (k + 1) _ s' (hstep s hP) h
    · cases h; exact hP

theorem loopSingle_returns (est : Header → Int) (w : World) (cfg : LoadCfg) :
    ∀ (n k : Nat) (s : Session), keepGoing w cfg (k + n) = false →
      ∃ s', loopSingle est w cfg (n + 1) k s = some s' := by
  intro n
  induction n with
  | zero =>
    intro k s h
    exact ⟨s, by simp [loopSingle, show keepGoing w cfg k = false from h]⟩
  | succ n ih =>
    intro k s h
    unfold loopSingle
    split
    · exact ih (k + 1) _ (by rw [← h]; congr 1; omega)
    · exact ⟨s, rfl⟩

theorem passFrom_inv {σ : Type} (est : Header → Int) (otto : Otto σ) (w : World)
    (cfg : LoadCfg) (P : SessionBy σ → Prop)
    (hstep : ∀ s index request, P s → P (stepBy est otto w cfg s index request)) :
    ∀ (steps : List PipelineRequest) (index : Nat) (s : SessionBy σ), P s →
      P (passFrom est otto w cfg steps index s) := by
  intro steps
  induction steps with
  | nil => intro index s hP; exact hP
  | cons request rest ih =>
    intro index s hP
    exact ih (index + 1) _ (hstep s index request hP)

theorem loopBy_inv {σ : Type} (est : Header → Int) (otto : Otto σ) (w : World)
    (cfg : LoadCfg) (P : SessionBy σ → Prop)
    (hstep : ∀ s index request, P s → P (stepBy est otto w cfg s index request)) :
    ∀ (fuel k : Nat) (s s' : SessionBy σ), P s →
      loopBy est otto w cfg fuel k s = some s' → P s' := by
  intro fuel
  induction fuel with
  | zero => intro k s s' _ h; simp [loopBy] at h
  | succ n ih =>
    intro k s s' hP h
    unfold loopBy at h
    split at h
    · exact ih (k + 1) _ s' (passFrom_inv est otto w cfg P hstep _ 0 s hP) h
    · cases h; exact hP

theorem loopBy_returns {σ : Type} (est : Header → Int) (otto : Otto σ) (w : World)
    (cfg : LoadCfg) :
    ∀ (n k : Nat) (s : SessionBy σ), keepGoing w cfg (k + n) = false →
      ∃ s', loopBy est otto w cfg (n + 1) k s = some s' := by
  intro n
  induction n with
  | zero =>
    intro k s h
    exact ⟨s, by simp [loopBy, show keepGoing w cfg k = false from h]⟩
  | succ n ih =>
    intro k s h
    unfold loopBy
    split
    · exact ih (k + 1) _ (by rw [← h]; congr 1; omega)
    · exact ⟨s, rfl⟩

/-- Both runs return once the loop condition fails at some evaluation `n`: `n + 1`
evaluations are enough. -/
theorem runs_return {σ : Type} (est : Header → Int) (otto : Otto σ) (vm : σ) (w : World)
    (cfg : LoadCfg) (n : Nat) (h : keepGoing w cfg n = false) :
    (∃ out, RunSingleLoadSession est w cfg (n + 1) = some out) ∧
    (∃ out, RunSingleLoadSessionBy est otto vm w cfg (n + 1) = some out) := by
  constructor
  · unfold RunSingleLoadSession
    split
    · exact ⟨_, rfl⟩
    · obtain ⟨s', hs'⟩ := loopSingle_returns est w cfg n 0 { stats := newStats, calls := [] }
        (by simpa using h)
      exact ⟨_, by rw [hs']; rfl⟩
  · unfold RunSingleLoadSessionBy
    split
    · exact ⟨_, rfl⟩
    · obtain ⟨s', hs'⟩ := loopBy_returns est otto w cfg n 0
        { stats := newStats, Responses := List.replicate w.requestParams.length [],
          vm := vm, calls := [] } (by simpa using h)
      exact ⟨_, by rw [hs']; rfl⟩

/-- Whatever holds of the initial state and is kept by the loop body holds of the
statistics a fixed-mode run sends, together with the calls it made. -/
theorem RunSingleLoadSession_inv (est : Header → Int) (w : World) (cfg : LoadCfg)
    (P : RequesterStats → List Call → Prop) (h0 : P newStats [])
    (hstep : ∀ s, P s.stats s.calls →
      P (requestOnce est w cfg s).stats (requestOnce est w cfg s).calls)
    (fuel : Nat) (out : Outcome) (h : RunSingleLoadSession est w cfg fuel = some out) :
    ∀ st ∈ out.statsAggregator, P st out.calls := by
  unfold RunSingleLoadSession at h
  split at h
  · cases h; intro st hst; simp at hst
  · cases hl : loopSingle est w cfg fuel 0 { stats := newStats, calls := [] } with
    | none => rw [hl] at h; simp at h
    | some s' =>
      rw [hl] at h
      simp only [Option.map_some', Option.some.injEq] at h
      subst h
      intro st hst
      simp only [List.mem_singleton] at hst
      subst hst
      exact loopSingle_inv est w cfg (fun s => P s.stats s.calls) hstep fuel 0 _ s' h0 hl

/-- The same for a pipeline run. -/
theorem RunSingleLoadSessionBy_inv {σ : Type} (est : Header → Int) (otto : Otto σ) (vm : σ)
    (w : World) (cfg : LoadCfg)
    (P : RequesterStats → List Call → Prop) (h0 : P newStats [])
    (hstep : ∀ (s : SessionBy σ) index request, P s.stats s.calls →
      P (stepBy est otto w cfg s index request).stats
        (stepBy est otto w cfg s index request).calls)
    (fuel : Nat) (out : Outcome) (h : RunSingleLoadSessionBy est otto vm w cfg fuel = some out) :
    ∀ st ∈ out.statsAggregator, P st out.calls := by
  unfold RunSingleLoadSessionBy at h
  split at h
  · cases h; intro st hst; simp at hst
  · cases hl : loopBy est otto w cfg fuel 0
      { stats := newStats, Responses := List.replicate w.requestParams.length [],
        vm := vm, calls := [] } with
    | none => rw [hl] at h; simp at h
    | some s' =>
      rw [hl] at h
      simp only [Option.map_some', Option.some.injEq] at h
      subst h
      intro st hst
      simp only [List.mem_singleton] at hst
      subst hst
      exact loopBy_inv est otto w cfg (fun s => P s.stats s.calls) hstep fuel 0 _ s' h0 hl

/-! ## Counters and request times after a run -/

theorem recordReply_counts (stats : RequesterStats) (r : Reply) :
    ((recordReply stats r).NumRequests = stats.NumRequests + 1 ∧
        (recordReply stats r).NumErrs = stats.NumErrs) ∨
      ((recordReply stats r).NumRequests = stats.NumRequests ∧
        (recordReply stats r).NumErrs = stats.NumErrs + 1) := by
  unfold recordReply
  split
  · exact Or.inl ⟨rfl, rfl⟩
  · exact Or.inr ⟨rfl, rfl⟩

theorem recordStep_counts (stats : RequesterStats) (t : Duration) (response : GoString)
    (r : Reply) :
    ((recordStep stats t response r).NumRequests = stats.NumRequests + 1 ∧
        (recordStep stats t response r).NumErrs = stats.NumErrs) ∨
      ((recordStep stats t response r).NumRequests = stats.NumRequests ∧
        (recordStep stats t response r).NumErrs = stats.NumErrs + 1) := by
  unfold recordStep
  split
  · exact Or.inl ⟨rfl, rfl⟩
  · exact Or.inr ⟨rfl, rfl⟩

/-- C7.  In both modes every call of `DoRequest` adds one to exactly one of
`NumRequests` and `NumErrs`, and the record a run sends satisfies
`NumRequests + NumErrs =` the number of calls of `DoRequest` the run made.  A run
returns as soon as its loop condition fails. -/
theorem attempts_are_counted {σ : Type} (est : Header → Int) (otto : Otto σ) (vm : σ)
    (w : World) (cfg : LoadCfg) :
    (∀ fuel out, RunSingleLoadSession est w cfg fuel = some out →
      ∀ st ∈ out.statsAggregator, st.NumRequests + st.NumErrs = out.calls.length) ∧
    (∀ fuel out, RunSingleLoadSessionBy est otto vm w cfg fuel = some out →
      ∀ st ∈ out.statsAggregator, st.NumRequests + st.NumErrs = out.calls.length) ∧
    (∀ s : Session,
      (requestOnce est w cfg s).calls.length = s.calls.length + 1 ∧
      (((requestOnce est w cfg s).stats.NumRequests = s.stats.NumRequests + 1 ∧
          (requestOnce est w cfg s).stats.NumErrs = s.stats.NumErrs) ∨
        ((requestOnce est w cfg s).stats.NumRequests = s.stats.NumRequests ∧
          (requestOnce est w cfg s).stats.NumErrs = s.stats.NumErrs + 1))) ∧
    (∀ (s : SessionBy σ) index request,
      (stepBy est otto w cfg s index request).calls.length = s.calls.length + 1 ∧
      (((stepBy est otto w cfg s index request).stats.NumRequests = s.stats.NumRequests + 1 ∧
          (stepBy est otto w cfg s index request).stats.NumErrs = s.stats.NumErrs) ∨
        ((stepBy est otto w cfg s index request).stats.NumRequests = s.stats.NumRequests ∧
          (stepBy est otto w cfg s index request).stats.NumErrs = s.stats.NumErrs + 1))) ∧
    (∀ n, keepGoing w cfg n = false →
      (∃ out, RunSingleLoadSession est w cfg (n + 1) = some out) ∧
      (∃ out, RunSingleLoadSessionBy est otto vm w cfg (n + 1) = some out)) := by
  have hone : ∀ s : Session,
      (requestOnce est w cfg s).calls.length = s.calls.length + 1 ∧
      (((requestOnce est w cfg s).stats.NumRequests = s.stats.NumRequests + 1 ∧
          (requestOnce est w cfg s).stats.NumErrs = s.stats.NumErrs) ∨
        ((requestOnce est w cfg s).stats.NumRequests = s.stats.NumRequests ∧
          (requestOnce est w cfg s).stats.NumErrs = s.stats.NumErrs + 1)) := fun s =>
    ⟨by simp [requestOnce], recordReply_counts _ _⟩
  have hby : ∀ (s : SessionBy σ) index request,
      (stepBy est otto w cfg s index request).calls.length = s.calls.length + 1 ∧
      (((stepBy est otto w cfg s index request).stats.NumRequests = s.stats.NumRequests + 1 ∧
          (stepBy est otto w cfg s index request).stats.NumErrs = s.stats.NumErrs) ∨
        ((stepBy est otto w cfg s index request).stats.NumRequests = s.stats.NumRequests ∧
          (stepBy est otto w cfg s index request).stats.NumErrs = s.stats.NumErrs + 1)) :=
    fun s index request => ⟨by simp [stepBy], recordStep_counts _ _ _ _⟩
  refine ⟨fun fuel out h => ?_, fun fuel out h => ?_, hone, hby,
    fun n hn => runs_return est otto vm w cfg n hn⟩
  · refine RunSingleLoadSession_inv est w cfg
      (fun st calls => st.NumRequests + st.NumErrs = calls.length) (by decide) ?_ fuel out h
    intro s hs
    obtain ⟨hl, hc⟩ := hone s
    rw [hl]
    push_cast
    rcases hc with ⟨h1, h2⟩ | ⟨h1, h2⟩ <;> omega
  · refine RunSingleLoadSessionBy_inv est otto vm w cfg
      (fun st calls => st.NumRequests + st.NumErrs = calls.length) (by decide) ?_ fuel out h
    intro s index request hs
    obtain ⟨hl, hc⟩ := hby s index request
    rw [hl]
    push_cast
    rcases hc with ⟨h1, h2⟩ | ⟨h1, h2⟩ <;> omega

/-- C7 at a concrete input: in `worldTwo` the fixed-mode run makes two calls (one
success, one error) and the pipeline run makes two calls as well. -/
theorem attempts_are_counted_example :
    (RunSingleLoadSession (estConst 20) worldTwo cfg0 3).map
        (fun out => (out.calls.length,
          out.statsAggregator.map fun st => (st.NumRequests, st.NumErrs))) =
      some (2, [(1, 1)]) ∧
    (RunSingleLoadSessionBy (estConst 20) ottoNone () worldTwo cfg0 3).map
        (fun out => (out.calls.length,
          out.statsAggregator.map fun st => (st.NumRequests, st.NumErrs))) =
      some (2, [(1, 1)]) ∧
    (∀ fuel out, RunSingleLoadSession (estConst 20) worldTwo cfg0 fuel = some out →
      ∀ st ∈ out.statsAggregator, st.NumRequests + st.NumErrs = out.calls.length) :=
  ⟨by decide, by decide, (attempts_are_counted (estConst 20) ottoNone () worldTwo cfg0).1⟩

theorem recordStep_requestTimes (stats : RequesterStats) (t : Duration)
    (response : GoString) (r : Reply) :
    (recordStep stats t response r).MinRequestTime = (recordReply stats r).MinRequestTime ∧
    (recordStep stats t response r).MaxRequestTime = (recordReply stats r).MaxRequestTime := by
  unfold recordStep recordReply
  split <;> exact ⟨rfl, rfl⟩

theorem recordReply_bounds (stats : RequesterStats) (calls : List Call) (r : Reply)
    (c0 : Call) (hc0 : c0.reply = r)
    (h : ∀ c ∈ calls, 0 < c.reply.respSize →
      stats.MinRequestTime ≤ c.reply.duration ∧ c.reply.duration ≤ stats.MaxRequestTime) :
    ∀ c ∈ calls ++ [c0], 0 < c.reply.respSize →
      (recordReply stats r).MinRequestTime ≤ c.reply.duration ∧
      c.reply.duration ≤ (recordReply stats r).MaxRequestTime := by
  intro c hc hpos
  rw [List.mem_append, List.mem_singleton] at hc
  unfold recordReply
  split
  · simp only [MinDuration, MaxDuration]
    rcases hc with hc | hc
    · have := h c hc hpos
      exact ⟨le_trans (min_le_right _ _) this.1, le_trans this.2 (le_max_right _ _)⟩
    · subst hc; rw [hc0]
      exact ⟨min_le_left _ _, le_max_left _ _⟩
  · rcases hc with hc | hc
    · exact h c hc hpos
    · subst hc; rw [hc0] at hpos; contradiction

theorem recordReply_requestTimes (stats : RequesterStats) (r : Reply) :
    (0 < r.respSize →
      (recordReply stats r).MinRequestTime = min r.duration stats.MinRequestTime ∧
      (recordReply stats r).MaxRequestTime = max r.duration stats.MaxRequestTime) ∧
    (r.respSize ≤ 0 →
      (recordReply stats r).MinRequestTime = stats.MinRequestTime ∧
      (recordReply stats r).MaxRequestTime = stats.MaxRequestTime) := by
  refine ⟨fun hpos => ?_, fun hneg => ?_⟩
  · simp only [recordReply, gt_iff_lt, if_pos hpos, MinDuration, MaxDuration, and_self]
  · have : ¬ (0 < r.respSize) := not_lt.mpr hneg
    simp only [recordReply, gt_iff_lt, if_neg this, and_self]

theorem successDurations_append (calls : List Call) (c : Call) :
    successDurations (calls ++ [c]) =
      if 0 < c.reply.respSize then successDurations calls ++ [c.reply.duration]
      else successDurations calls := by
  unfold successDurations
  by_cases h : 0 < c.reply.respSize <;> simp [List.filter_append, List.filter_cons, h]

theorem recordReply_folds (stats : RequesterStats) (calls : List Call) (r : Reply)
    (c0 : Call) (hc0 : c0.reply = r)
    (h : stats.MinRequestTime = (successDurations calls).foldl (fun m d => min d m) Minute ∧
      stats.MaxRequestTime = (successDurations calls).foldl (fun m d => max d m) 0) :
    (recordReply stats r).MinRequestTime =
        (successDurations (calls ++ [c0])).foldl (fun m d => min d m) Minute ∧
    (recordReply stats r).MaxRequestTime =
        (successDurations (calls ++ [c0])).foldl (fun m d => max d m) 0 := by
  rw [successDurations_append, hc0]
  by_cases hpos : 0 < r.respSize
  · rw [if_pos hpos, (recordReply_requestTimes stats r).1 hpos |>.1,
      (recordReply_requestTimes stats r).1 hpos |>.2, h.1, h.2]
    simp [List.foldl_append]
  · rw [if_neg hpos, (recordReply_requestTimes stats r).2 (not_lt.mp hpos) |>.1,
      (recordReply_requestTimes stats r).2 (not_lt.mp hpos) |>.2]
    exact h

/-- C8.  `MinRequestTime` starts at one minute and `MaxRequestTime` at 0.  Every turn of
either loop body makes one call of `DoRequest` and logs it; when the call is counted as a
success (positive size) its duration `d` is folded in, `MinRequestTime` becoming
`min d MinRequestTime` and `MaxRequestTime` becoming `max d MaxRequestTime`, and otherwise
the two are left alone.  So in both modes the record a run sends holds the minimum (from
one minute) and the maximum (from 0) of the durations of the successes, and satisfies
`MinRequestTime ≤ d ≤ MaxRequestTime` for the duration `d` of every call the run counted
as a success.  A run returns as soon as its loop condition fails. -/
theorem request_times_bracket_successes {σ : Type} (est : Header → Int) (otto : Otto σ)
    (vm : σ) (w : World) (cfg : LoadCfg) :
    (newStats.MinRequestTime = Minute ∧ newStats.MaxRequestTime = 0) ∧
    (∀ fuel out, RunSingleLoadSession est w cfg fuel = some out →
      ∀ st ∈ out.statsAggregator, ∀ c ∈ out.calls, 0 < c.reply.respSize →
        st.MinRequestTime ≤ c.reply.duration ∧ c.reply.duration ≤ st.MaxRequestTime) ∧
    (∀ fuel out, RunSingleLoadSessionBy est otto vm w cfg fuel = some out →
      ∀ st ∈ out.statsAggregator, ∀ c ∈ out.calls, 0 < c.reply.respSize →
        st.MinRequestTime ≤ c.reply.duration ∧ c.reply.duration ≤ st.MaxRequestTime) ∧
    (∀ n, keepGoing w cfg n = false →
      (∃ out, RunSingleLoadSession est w cfg (n + 1) = some out) ∧
      (∃ out, RunSingleLoadSessionBy est otto vm w cfg (n + 1) = some out)) ∧
    (∀ s : Session,
      (requestOnce est w cfg s).calls = s.calls ++
        [{ method := cfg.method, host := cfg.host, loadUrl := cfg.testUrl,
           reqBody := cfg.reqBody,
           reply := DoRequest est (w.net s.calls.length) cfg.header cfg.method cfg.host
             cfg.testUrl cfg.reqBody }] ∧
      (0 < (DoRequest est (w.net s.calls.length) cfg.header cfg.method cfg.host
            cfg.testUrl cfg.reqBody).respSize →
        (requestOnce est w cfg s).stats.MinRequestTime =
          min (DoRequest est (w.net s.calls.length) cfg.header cfg.method cfg.host
            cfg.testUrl cfg.reqBody).duration s.stats.MinRequestTime ∧
        (requestOnce est w cfg s).stats.MaxRequestTime =
          max (DoRequest est (w.net s.calls.length) cfg.header cfg.method cfg.host
            cfg.testUrl cfg.reqBody).duration s.stats.MaxRequestTime) ∧
      ((DoRequest est (w.net s.calls.length) cfg.header cfg.method cfg.host
            cfg.testUrl cfg.reqBody).respSize ≤ 0 →
        (requestOnce est w cfg s).stats.MinRequestTime = s.stats.MinRequestTime ∧
        (requestOnce est w cfg s).stats.MaxRequestTime = s.stats.MaxRequestTime)) ∧
    (∀ (s : SessionBy σ) index request,
      (stepBy est otto w cfg s index request).calls = s.calls ++
        [{ method := request.Method, host := str "", loadUrl := request.Url,
           reqBody := (render otto s.vm s.Responses request.Parameters).2,
           reply := replyBy est otto w cfg s request }] ∧
      (0 < (replyBy est otto w cfg s request).respSize →
        (stepBy est otto w cfg s index request).stats.MinRequestTime =
          min (replyBy est otto w cfg s request).duration s.stats.MinRequestTime ∧
        (stepBy est otto w cfg s index request).stats.MaxRequestTime =
          max (replyBy est otto w cfg s request).duration s.stats.MaxRequestTime) ∧
      ((replyBy est otto w cfg s request).respSize ≤ 0 →
        (stepBy est otto w cfg s index request).stats.MinRequestTime = s.stats.MinRequestTime ∧
        (stepBy est otto w cfg s index request).stats.MaxRequestTime =
          s.stats.MaxRequestTime)) ∧
    (∀ fuel out, RunSingleLoadSession est w cfg fuel = some out →
      ∀ st ∈ out.statsAggregator,
        st.MinRequestTime = (successDurations out.calls).foldl (fun m d => min d m) Minute ∧
        st.MaxRequestTime = (successDurations out.calls).foldl (fun m d => max d m) 0) ∧
    (∀ fuel out, RunSingleLoadSessionBy est otto vm w cfg fuel = some out →
      ∀ st ∈ out.statsAggregator,
        st.MinRequestTime = (successDurations out.calls).foldl (fun m d => min d m) Minute ∧
        st.MaxRequestTime = (successDurations out.calls).foldl (fun m d => max d m) 0) := by
  have hby : ∀ (s : SessionBy σ) index request,
      (stepBy est otto w cfg s index request).stats.MinRequestTime =
          (recordReply s.stats (replyBy est otto w cfg s request)).MinRequestTime ∧
      (stepBy est otto w cfg s index request).stats.MaxRequestTime =
          (recordReply s.stats (replyBy est otto w cfg s request)).MaxRequestTime :=
    fun s index request => by
      rw [stepBy_stats]
      exact recordStep_requestTimes _ _ _ _
  refine ⟨⟨rfl, rfl⟩, fun fuel out h => ?_, fun fuel out h => ?_,
    fun n hn => runs_return est otto vm w cfg n hn, fun s => ⟨rfl, ?_, ?_⟩,
    fun s index request => ⟨rfl, ?_, ?_⟩, fun fuel out h => ?_, fun fuel out h => ?_⟩
  · refine RunSingleLoadSession_inv est w cfg
      (fun st calls => ∀ c ∈ calls, 0 < c.reply.respSize →
        st.MinRequestTime ≤ c.reply.duration ∧ c.reply.duration ≤ st.MaxRequestTime)
      (by intro c hc; simp at hc) ?_ fuel out h
    intro s hs
    exact recordReply_bounds s.stats s.calls _ _ rfl hs
  · refine RunSingleLoadSessionBy_inv est otto vm w cfg
      (fun st calls => ∀ c ∈ calls, 0 < c.reply.respSize →
        st.MinRequestTime ≤ c.reply.duration ∧ c.reply.duration ≤ st.MaxRequestTime)
      (by intro c hc; simp at hc) ?_ fuel out h
    intro s index request hs c hc hpos
    have hb := recordReply_bounds s.stats s.calls (replyBy est otto w cfg s request)
      { method := request.Method, host := str "", loadUrl := request.Url,
        reqBody := (render otto s.vm s.Responses request.Parameters).2,
        reply := replyBy est otto w cfg s request } rfl hs c hc hpos
    rw [(hby s index request).1, (hby s index request).2]
    exact hb
  · exact (recordReply_requestTimes s.stats _).1
  · exact (recordReply_requestTimes s.stats _).2
  · intro hpos
    rw [(hby s index request).1, (hby s index request).2]
    exact (recordReply_requestTimes s.stats _).1 hpos
  · intro hneg
    rw [(hby s index request).1, (hby s index request).2]
    exact (recordReply_requestTimes s.stats _).2 hneg
  · refine RunSingleLoadSession_inv est w cfg
      (fun st calls =>
        st.MinRequestTime = (successDurations calls).foldl (fun m d => min d m) Minute ∧
        st.MaxRequestTime = (successDurations calls).foldl (fun m d => max d m) 0)
      ⟨rfl, rfl⟩ ?_ fuel out h
    intro s hs
    exact recordReply_folds s.stats s.calls _ _ rfl hs
  · refine RunSingleLoadSessionBy_inv est otto vm w cfg
      (fun st calls =>
        st.MinRequestTime = (successDurations calls).foldl (fun m d => min d m) Minute ∧
        st.MaxRequestTime = (successDurations calls).foldl (fun m d => max d m) 0)
      ⟨rfl, rfl⟩ ?_ fuel out h
    intro s index request hs
    have hf := recordReply_folds s.stats s.calls (replyBy est otto w cfg s request)
      { method := request.Method, host := str "", loadUrl := request.Url,
        reqBody := (render otto s.vm s.Responses request.Parameters).2,
        reply := replyBy est otto w cfg s request } rfl hs
    rw [(hby s index request).1, (hby s index request).2]
    exact hf

/-- C8 at a concrete input, in both modes: in `worldTwo` the first call is a success that
took 9 ns and the second an error, and the record sent has
`MinRequestTime = MaxRequestTime = 9`. -/
theorem request_times_bracket_successes_example :
    (RunSingleLoadSession (estConst 20) worldTwo cfg0 3).map
        (fun out => (out.calls.map (fun c => (decide (0 < c.reply.respSize), c.reply.duration)),
          out.statsAggregator.map fun st => (st.MinRequestTime, st.MaxRequestTime))) =
      some ([(true, 9), (false, -1)], [(9, 9)]) ∧
    (RunSingleLoadSessionBy (estConst 20) ottoNone () worldTwo cfg0 3).map
        (fun out => (out.calls.map (fun c => (decide (0 < c.reply.respSize), c.reply.duration)),
          out.statsAggregator.map fun st => (st.MinRequestTime, st.MaxRequestTime))) =
      some ([(true, 9), (false, -1)], [(9, 9)]) ∧
    (∀ fuel out, RunSingleLoadSession (estConst 20) worldTwo cfg0 fuel = some out →
      ∀ st ∈ out.statsAggregator, ∀ c ∈ out.calls, 0 < c.reply.respSize →
        st.MinRequestTime ≤ c.reply.duration ∧ c.reply.duration ≤ st.MaxRequestTime) ∧
    (∀ fuel out, RunSingleLoadSessionBy (estConst 20) ottoNone () worldTwo cfg0 fuel = some out →
      ∀ st ∈ out.statsAggregator, ∀ c ∈ out.calls, 0 < c.reply.respSize →
        st.MinRequestTime ≤ c.reply.duration ∧ c.reply.duration ≤ st.MaxRequestTime) :=
  ⟨by decide, by decide,
    (request_times_bracket_successes (estConst 20) ottoNone () worldTwo cfg0).2.1,
    (request_times_bracket_successes (estConst 20) ottoNone () worldTwo cfg0).2.2.1⟩

/-! ## Cancellation before the start -/

theorem keepGoing_Stop (w : World) (cfg : LoadCfg) (k : Nat) :
    keepGoing w (Stop cfg) k = false := by
  unfold keepGoing loadInterrupted Stop
  by_cases h : w.stopCalled k <;> simp [h]

/-- C9.  When `Stop` was called on the configuration before the run starts and the
client is built, a run in either mode makes no call of `DoRequest` and sends exactly one
record, the initial one, in which `NumRequests` and `NumErrs` are 0; this for every
configuration, every clock and every number `fuel + 1` of allowed evaluations of the
loop condition. -/
theorem stopped_before_start {σ : Type} (est : Header → Int) (otto : Otto σ) (vm : σ)
    (w : World) (cfg : LoadCfg) (fuel : Nat) (hclient : w.clientErr = false) :
    RunSingleLoadSession est w (Stop cfg) (fuel + 1) =
      some { fatal := false, statsAggregator := [newStats], calls := [], Responses := [] } ∧
    RunSingleLoadSessionBy est otto vm w (Stop cfg) (fuel + 1) =
      some { fatal := false, statsAggregator := [newStats], calls := [],
             Responses := List.replicate w.requestParams.length [] } ∧
    newStats.NumRequests = 0 ∧ newStats.NumErrs = 0 := by
  refine ⟨?_, ?_, rfl, rfl⟩
  · simp [RunSingleLoadSession, hclient, loopSingle, keepGoing_Stop]
  · simp [RunSingleLoadSessionBy, hclient, loopBy, keepGoing_Stop]

/-- C9 at a concrete input: `worldTwo`, whose clock would allow two turns, with the flag
set beforehand. -/
theorem stopped_before_start_example :
    worldTwo.clientErr = false ∧
    (RunSingleLoadSession (estConst 20) worldTwo (Stop cfg0) 1).map
        (fun out => (out.calls.length, out.statsAggregator.length)) = some (0, 1) ∧
    (RunSingleLoadSessionBy (estConst 20) ottoNone () worldTwo (Stop cfg0) 1).map
        (fun out => (out.calls.length, out.statsAggregator.length)) = some (0, 1) :=
  ⟨rfl,
    by rw [(stopped_before_start (estConst 20) ottoNone () worldTwo cfg0 0 rfl).1]; rfl,
    by rw [(stopped_before_start (estConst 20) ottoNone () worldTwo cfg0 0 rfl).2.1]; rfl⟩

/-! ## Templates -/

theorem startsWith_iff (s p : GoString) : startsWith s p = true ↔ ∃ t, s = p ++ t := by
  induction p generalizing s with
  | nil => simp [startsWith]
  | cons a p ih =>
    cases s with
    | nil => simp [startsWith]
    | cons c cs =>
      simp only [startsWith, Bool.and_eq_true, beq_iff_eq, ih, List.cons_append, List.cons.injEq]
      constructor
      · rintro ⟨rfl, t, rfl⟩; exact ⟨t, rfl, rfl⟩
      · rintro ⟨t, rfl, rfl⟩; exact ⟨rfl, t, rfl⟩

theorem notBrace_iff (c : UInt8) : notBrace c = true ↔ c ≠ lbrace ∧ c ≠ rbrace := by
  simp [notBrace]

theorem matchAt_sound (s g : GoString) (h : matchAt s = some g) :
    g ≠ [] ∧ (∀ c ∈ g, c ≠ lbrace ∧ c ≠ rbrace) ∧
      ∃ post, s = [lbrace, lbrace] ++ g ++ [rbrace, rbrace] ++ post := by
  unfold matchAt at h
  split at h
  · rename_i hs
    obtain ⟨rest, rfl⟩ := (startsWith_iff _ _).1 hs
    simp only [List.cons_append, List.nil_append, List.drop_succ_cons, List.drop_zero] at h
    split at h
    · cases h
    · rename_i hg
      split at h
      · rename_i hd
        cases h
        obtain ⟨post, hpost⟩ := (startsWith_iff _ _).1 hd
        refine ⟨by simpa using hg, fun c hc => (notBrace_iff c).1 (List.mem_takeWhile_imp hc), post, ?_⟩
        have := List.takeWhile_append_dropWhile notBrace rest
        rw [hpost] at this
        simp only [List.cons_append, List.nil_append, List.append_assoc, List.cons.injEq, true_and]
        simpa using this.symm
      · cases h
  · cases h

theorem matchAt_complete (g post : GoString) (hg : g ≠ [])
    (hall : ∀ c ∈ g, c ≠ lbrace ∧ c ≠ rbrace) :
    matchAt ([lbrace, lbrace] ++ g ++ [rbrace, rbrace] ++ post) = some g := by
  have hall' : ∀ c ∈ g, notBrace c = true := fun c hc => (notBrace_iff c).2 (hall c hc)
  have hr : notBrace rbrace = false := by decide
  have hs : startsWith ([lbrace, lbrace] ++ g ++ [rbrace, rbrace] ++ post) [lbrace, lbrace] = true :=
    (startsWith_iff _ _).2 ⟨g ++ [rbrace, rbrace] ++ post, by simp⟩
  unfold matchAt
  rw [if_pos hs]
  have hrest : List.drop 2 ([lbrace, lbrace] ++ g ++ [rbrace, rbrace] ++ post)
      = g ++ (rbrace :: rbrace :: post) := by simp
  simp only [hrest, List.takeWhile_append_of_pos hall', List.dropWhile_append_of_pos hall',
    List.takeWhile_cons, List.dropWhile_cons, hr]
  simp [hg, startsWith]

theorem findFrom_sound : ∀ (s : GoString) (skip : Nat), findFrom s skip ≠ [] → HasPlaceholder s := by
  intro s
  induction s with
  | nil => intro skip h; simp [findFrom] at h
  | cons c cs ih =>
    intro skip h
    cases skip with
    | succ k =>
      simp only [findFrom] at h
      obtain ⟨pre, g, post, hg, hall, rfl⟩ := ih k h
      exact ⟨c :: pre, g, post, hg, hall, by simp⟩
    | zero =>
      cases hm : matchAt (c :: cs) with
      | some g =>
        obtain ⟨hg, hall, post, hpost⟩ := matchAt_sound _ _ hm
        exact ⟨[], g, post, hg, hall, by simpa using hpost⟩
      | none =>
        simp only [findFrom, hm] at h
        obtain ⟨pre, g, post, hg, hall, rfl⟩ := ih 0 h
        exact ⟨c :: pre, g, post, hg, hall, by simp⟩

theorem findFrom_complete : ∀ (s : GoString) (skip : Nat) (pre g post : GoString),
    g ≠ [] → (∀ c ∈ g, c ≠ lbrace ∧ c ≠ rbrace) →
    s = pre ++ [lbrace, lbrace] ++ g ++ [rbrace, rbrace] ++ post → skip ≤ pre.length →
    findFrom s skip ≠ [] := by
  intro s
  induction s with
  | nil => intro skip pre g post _ _ h _; simp at h
  | cons c cs ih =>
    intro skip pre g post hg hall h hskip
    cases pre with
    | nil =>
      have hz : skip = 0 := by simpa using hskip
      subst hz
      have hm := matchAt_complete g post hg hall
      simp only [List.nil_append] at h
      rw [← h] at hm
      simp [findFrom, hm]
    | cons p pre =>
      simp only [List.cons_append, List.cons.injEq] at h
      obtain ⟨rfl, hcs⟩ := h
      cases skip with
      | succ k =>
        simp only [findFrom]
        exact ih k pre g post hg hall (by simpa using hcs) (by simpa using hskip)
      | zero =>
        cases hm : matchAt (c :: cs) with
        | some g' => simp [findFrom, hm]
        | none =>
          simp only [findFrom, hm]
          exact ih 0 pre g post hg hall (by simpa using hcs) (Nat.zero_le _)

theorem hasPlaceholder_iff (paras : GoString) :
    HasPlaceholder paras ↔ FindAllStringSubmatch paras ≠ [] := by
  constructor
  · rintro ⟨pre, g, post, hg, hall, h⟩
    exact findFrom_complete paras 0 pre g post hg hall h (Nat.zero_le _)
  · exact findFrom_sound paras 0

/-- C10.  For a step whose parameter string contains no placeholder, whatever the
response history and the state of the interpreter, rendering returns the string as it
is, and the step calls `DoRequest` with the original string as its body. -/
theorem no_placeholder_unchanged {σ : Type} (est : Header → Int) (otto : Otto σ)
    (w : World) (cfg : LoadCfg) (s : SessionBy σ) (index : Nat) (request : PipelineRequest)
    (h : ¬ HasPlaceholder request.Parameters) :
    (render otto s.vm s.Responses request.Parameters).2 = request.Parameters ∧
    replyBy est otto w cfg s request =
      DoRequest est (w.net s.calls.length) cfg.header request.Method (str "") request.Url
        request.Parameters ∧
    (stepBy est otto w cfg s index request).calls =
      s.calls ++ [{ method := request.Method, host := str "", loadUrl := request.Url,
                    reqBody := request.Parameters,
                    reply := DoRequest est (w.net s.calls.length) cfg.header request.Method
                      (str "") request.Url request.Parameters }] := by
  have hfind : FindAllStringSubmatch request.Parameters = [] := by
    by_contra hne
    exact h ((hasPlaceholder_iff _).2 hne)
  have hr : (render otto s.vm s.Responses request.Parameters).2 = request.Parameters := by
    unfold render
    split
    · rw [hfind]; rfl
    · rfl
  have hreply : replyBy est otto w cfg s request =
      DoRequest est (w.net s.calls.length) cfg.header request.Method (str "") request.Url
        request.Parameters := by
    unfold replyBy
    rw [hr]
  refine ⟨hr, hreply, ?_⟩
  simp only [stepBy, hr, hreply]

/-- C10 at a concrete input: the parameter string of `stepBraces` contains two opening
braces and yet no placeholder; it is the body of the call. -/
theorem no_placeholder_unchanged_example :
    ¬ HasPlaceholder stepBraces.Parameters ∧
    0 ≤ Index stepBraces.Parameters [lbrace, lbrace] ∧
    (stepBy (estConst 20) ottoNone (worldFail 200) cfg0 startOne 0 stepBraces).calls.map
      (fun c => c.reqBody) = [str "a=\x7b\x7b\x7d\x7d&b=\x7bx\x7d"] :=
  ⟨fun hp => absurd ((hasPlaceholder_iff _).1 hp) (by decide), by decide,
    by rw [(no_placeholder_unchanged (estConst 20) ottoNone (worldFail 200) cfg0 startOne 0
      stepBraces (fun hp => absurd ((hasPlaceholder_iff _).1 hp) (by decide))).2.2]; rfl⟩

end Loader
